import Mathlib

/-!
Verification of the Secret Santa matcher and reveal sequencer from `src/app.py`.

The matcher `generate_valid_pairs` draws random shuffles of the roster and
returns the first one that avoids self-gifts and last year's directed pairs,
giving up after 10000 attempts.  We embed the randomness as an external stream
`shuffles : Nat → List String` giving the list produced by `random.shuffle` on
attempt `k`; Python's `random.shuffle` permutes its input in place, which is the
hypothesis `(shuffles k).Perm roster` used where a claim needs it.  The module
globals `names` and `blocked_pairs` are passed as parameters `roster` and
`blocked`; a Python `dict` built by `dict(zip(names, shuffled))` is embedded as
the association list `names.zip shuffled` (the roster's entries are unique, so
the two agree key-for-key and preserve insertion order).

The Streamlit session (`st.session_state`) is a record of the generated pairs,
the step index and the revealed flag; each button handler is a transition
function guarded exactly as the app guards the rendering of that button.
-/

namespace SecretSanta

/-- The roster, module global `names` in `src/app.py`. -/
def names : List String := ["Ariel", "Kurt", "Scott", "Linda", "Daniel"]

/-- Module global `last_year_gifts`: the directed pairs of last year's cycle. -/
def last_year_gifts : List (String × String) :=
  [("Kurt", "Ariel"), ("Ariel", "Kurt"), ("Scott", "Ariel"),
   ("Linda", "Scott"), ("Daniel", "Linda"), ("Ariel", "Daniel")]

/-- Module global `blocked_pairs = set(last_year_gifts)`; only membership is
ever consulted, so the set is kept as the underlying list. -/
def blocked_pairs : List (String × String) := last_year_gifts

/-- `pairs = dict(zip(names, shuffled))` of one attempt, as an association
list in roster order. -/
def mk_pairs (roster shuffled : List String) : List (String × String) :=
  roster.zip shuffled

/-- Body of the validation loop: `giver == receiver` rejects, and
`(giver, receiver) in blocked_pairs` rejects. -/
def pair_ok (blocked : List (String × String)) (gr : String × String) : Bool :=
  decide (gr.1 ≠ gr.2) && decide (gr ∉ blocked)

/-- The `is_valid` flag computed by the validation loop of
`generate_valid_pairs`: the loop breaks at the first offending pair, which is
exactly `List.all`. -/
def is_valid (blocked : List (String × String)) (pairs : List (String × String)) : Bool :=
  pairs.all (pair_ok blocked)

/-- The `for attempt in range(10000)` loop: `attempt` is the index of the next
shuffle to draw and `fuel` the number of attempts left. -/
def try_loop (roster : List String) (blocked : List (String × String))
    (shuffles : Nat → List String) : Nat → Nat → Option (List (String × String))
  | _, 0 => none
  | attempt, fuel + 1 =>
    let pairs := mk_pairs roster (shuffles attempt)
    if is_valid blocked pairs then some pairs
    else try_loop roster blocked shuffles (attempt + 1) fuel

/-- `generate_valid_pairs` from `src/app.py`, with the module globals as the
parameters `roster` and `blocked` and the seeded RNG as the stream `shuffles`.
Returns the first accepted candidate, `none` after 10000 failed attempts. -/
def generate_valid_pairs (roster : List String) (blocked : List (String × String))
    (shuffles : Nat → List String) : Option (List (String × String)) :=
  try_loop roster blocked shuffles 0 10000

theorem try_loop_eq_none (roster : List String) (blocked : List (String × String))
    (shuffles : Nat → List String) (start fuel : Nat)
    (h : ∀ k, start ≤ k → k < start + fuel →
      is_valid blocked (mk_pairs roster (shuffles k)) = false) :
    try_loop roster blocked shuffles start fuel = none := by
  induction fuel generalizing start with
  | zero => rfl
  | succ n ih =>
    have h0 : is_valid blocked (mk_pairs roster (shuffles start)) = false :=
      h start (Nat.le_refl _) (by omega)
    simp only [try_loop, h0, Bool.false_eq_true, if_false]
    exact ih (start + 1) (fun k hk1 hk2 => h k (by omega) (by omega))

theorem try_loop_eq_some (roster : List String) (blocked : List (String × String))
    (shuffles : Nat → List String) (start fuel : Nat) (pairs : List (String × String))
    (h : try_loop roster blocked shuffles start fuel = some pairs) :
    ∃ k, start ≤ k ∧ k < start + fuel ∧ pairs = mk_pairs roster (shuffles k) ∧
      is_valid blocked pairs = true := by
  induction fuel generalizing start with
  | zero => simp [try_loop] at h
  | succ n ih =>
    by_cases hv : is_valid blocked (mk_pairs roster (shuffles start)) = true
    · refine ⟨start, Nat.le_refl _, by omega, ?_, ?_⟩
      · simp only [try_loop, hv, if_true] at h
        exact (Option.some_inj.mp h).symm
      · simp only [try_loop, hv, if_true] at h
        rw [← Option.some_inj.mp h]
        exact hv
    · simp only [try_loop, hv, if_false] at h
      obtain ⟨k, hk1, hk2, hk3, hk4⟩ := ih (start + 1) h
      exact ⟨k, by omega, by omega, hk3, hk4⟩

theorem try_loop_first (roster : List String) (blocked : List (String × String))
    (shuffles : Nat → List String) (start fuel k : Nat)
    (hk1 : start ≤ k) (hk2 : k < start + fuel)
    (hvalid : is_valid blocked (mk_pairs roster (shuffles k)) = true)
    (hmin : ∀ j, start ≤ j → j < k →
      is_valid blocked (mk_pairs roster (shuffles j)) = false) :
    try_loop roster blocked shuffles start fuel = some (mk_pairs roster (shuffles k)) := by
  induction fuel generalizing start with
  | zero => omega
  | succ n ih =>
    by_cases hsk : start = k
    · subst hsk
      simp only [try_loop, hvalid, if_true]
    · have hlt : start < k := by omega
      have h0 : is_valid blocked (mk_pairs roster (shuffles start)) = false :=
        hmin start (Nat.le_refl _) hlt
      simp only [try_loop, h0, Bool.false_eq_true, if_false]
      exact ih (start + 1) (by omega) (by omega) (fun j hj1 hj2 => hmin j (by omega) hj2)

theorem is_valid_mem (blocked : List (String × String)) (pairs : List (String × String))
    (h : is_valid blocked pairs = true) :
    ∀ gr, gr ∈ pairs → gr.1 ≠ gr.2 ∧ gr ∉ blocked := by
  intro gr hgr
  have := (List.all_eq_true.mp h) gr hgr
  simp only [pair_ok, Bool.and_eq_true, decide_eq_true_eq] at this
  exact this

/-- Keys and values of an accepted candidate: keys are the roster in order,
values are the drawn shuffle, assuming `random.shuffle` permutes the roster. -/
theorem gvp_keys_values (roster : List String) (blocked : List (String × String))
    (shuffles : Nat → List String) (hsh : ∀ k, (shuffles k).Perm roster)
    (pairs : List (String × String))
    (h : generate_valid_pairs roster blocked shuffles = some pairs) :
    pairs.map Prod.fst = roster ∧ (pairs.map Prod.snd).Perm roster := by
  obtain ⟨k, _, _, hpz, _⟩ := try_loop_eq_some roster blocked shuffles 0 10000 pairs h
  have hlen : (shuffles k).length = roster.length := (hsh k).length_eq
  subst hpz
  constructor
  · exact List.map_fst_zip roster (shuffles k) (by omega)
  · rw [mk_pairs, List.map_snd_zip roster (shuffles k) (by omega)]
    exact hsh k

/-- A concrete shuffle of the roster that the validation loop accepts:
Ariel→Scott, Kurt→Linda, Scott→Daniel, Linda→Ariel, Daniel→Kurt avoids every
blocked pair and every self-pair.  Used to exercise the success path. -/
def goodList : List String := ["Scott", "Linda", "Daniel", "Ariel", "Kurt"]

theorem goodList_perm : goodList.Perm names := by decide

/-- C1: every non-failure result of `generate_valid_pairs` is a bijection over
the roster: its keys are exactly the roster in roster order and its values are
a permutation of the roster, so each participant is giver exactly once and
receiver exactly once. -/
theorem C1_matcher_bijection (roster : List String) (blocked : List (String × String))
    (shuffles : Nat → List String) (hsh : ∀ k, (shuffles k).Perm roster)
    (pairs : List (String × String))
    (h : generate_valid_pairs roster blocked shuffles = some pairs) :
    pairs.map Prod.fst = roster ∧ (pairs.map Prod.snd).Perm roster :=
  gvp_keys_values roster blocked shuffles hsh pairs h

theorem C1_matcher_bijection_witness :
    (mk_pairs names goodList).map Prod.fst = names ∧
    ((mk_pairs names goodList).map Prod.snd).Perm names :=
  C1_matcher_bijection names blocked_pairs (fun _ => goodList)
    (fun _ => goodList_perm) (mk_pairs names goodList) (by decide)

/-- C2: every non-failure result of the matcher is a valid assignment: each
giver differs from their receiver and no returned pair lies in the forbidden
set; in particular this holds for the concrete roster and the six blocked
pairs of `src/app.py` (exercised in the witness). -/
theorem C2_matcher_valid (roster : List String) (blocked : List (String × String))
    (shuffles : Nat → List String) (pairs : List (String × String))
    (h : generate_valid_pairs roster blocked shuffles = some pairs) :
    ∀ gr, gr ∈ pairs → gr.1 ≠ gr.2 ∧ gr ∉ blocked := by
  obtain ⟨k, _, _, _, hvalid⟩ := try_loop_eq_some roster blocked shuffles 0 10000 pairs h
  exact is_valid_mem blocked pairs hvalid

theorem C2_matcher_valid_witness :
    ("Ariel", "Scott").1 ≠ ("Ariel", "Scott").2 ∧ ("Ariel", "Scott") ∉ blocked_pairs :=
  C2_matcher_valid names blocked_pairs (fun _ => goodList) (mk_pairs names goodList)
    (by decide) ("Ariel", "Scott") (by decide)

/-- C3: the matcher performs at most 10000 attempts: if every candidate drawn
in attempts 0..9999 fails validation it returns `none` (the single failure
outcome), and otherwise it returns the first candidate that passes
validation. -/
theorem C3_retry_budget (roster : List String) (blocked : List (String × String))
    (shuffles : Nat → List String) :
    ((∀ k, k < 10000 → is_valid blocked (mk_pairs roster (shuffles k)) = false) →
      generate_valid_pairs roster blocked shuffles = none) ∧
    (∀ k, k < 10000 → is_valid blocked (mk_pairs roster (shuffles k)) = true →
      (∀ j, j < k → is_valid blocked (mk_pairs roster (shuffles j)) = false) →
      generate_valid_pairs roster blocked shuffles = some (mk_pairs roster (shuffles k))) := by
  constructor
  · intro h
    exact try_loop_eq_none roster blocked shuffles 0 10000
      (fun k _ hk => h k (by omega))
  · intro k hk hvalid hmin
    exact try_loop_first roster blocked shuffles 0 10000 k (Nat.zero_le _) (by omega)
      hvalid (fun j _ hj => hmin j hj)

theorem C3_retry_budget_witness :
    generate_valid_pairs names blocked_pairs (fun _ => names) = none ∧
    generate_valid_pairs names blocked_pairs (fun _ => goodList) = some (mk_pairs names goodList) :=
  ⟨(C3_retry_budget names blocked_pairs (fun _ => names)).1 (fun k _ => by decide),
   (C3_retry_budget names blocked_pairs (fun _ => goodList)).2 0 (by decide) (by decide)
     (fun j hj => absurd hj (Nat.not_lt_zero j))⟩

/-- C4: on a roster with a single participant the matcher always fails,
whatever the forbidden set: every shuffle of a one-element roster maps the sole
participant to themself, so all 10000 attempts are rejected. -/
theorem C4_singleton_fails (a : String) (blocked : List (String × String))
    (shuffles : Nat → List String) (hsh : ∀ k, (shuffles k).Perm [a]) :
    generate_valid_pairs [a] blocked shuffles = none := by
  apply try_loop_eq_none
  intro k _ _
  have hk : shuffles k = [a] := List.perm_singleton.mp (hsh k)
  rw [hk]
  simp [mk_pairs, is_valid, pair_ok]

theorem C4_singleton_fails_witness :
    generate_valid_pairs ["Ariel"] [] (fun _ => ["Ariel"]) = none :=
  C4_singleton_fails "Ariel" [] (fun _ => ["Ariel"]) (fun _ => List.Perm.refl _)

/-- The Streamlit session: `st.session_state.pairs`, `.step`, `.revealed`. -/
structure SessionState where
  pairs : Option (List (String × String))
  step : Nat
  revealed : Bool
deriving DecidableEq

/-- The "Reveal who you're gifting to" handler.  The app renders that button
only when the page was not stopped (`pairs` is not `None`, `step < len(names)`)
and `revealed` is false; clicking it sets `revealed = True`.  Outside the guard
the button does not exist, so the action is a no-op. -/
def sessionReveal (roster : List String) (s : SessionState) : SessionState :=
  if s.pairs.isSome = true ∧ s.step < roster.length ∧ s.revealed = false then
    ⟨s.pairs, s.step, true⟩
  else s

/-- The "Next person (hide this)" handler: rendered only when the page was not
stopped and `revealed` is true; clicking it sets `revealed = False` and
increments `step`.  Outside the guard it is a no-op. -/
def sessionAdvance (roster : List String) (s : SessionState) : SessionState :=
  if s.pairs.isSome = true ∧ s.step < roster.length ∧ s.revealed = true then
    ⟨s.pairs, s.step + 1, false⟩
  else s

/-- One reveal-then-advance cycle of a participant's turn. -/
def revealAdvanceCycle (roster : List String) (s : SessionState) : SessionState :=
  sessionAdvance roster (sessionReveal roster s)

/-- The session-state initialization block of `src/app.py`: generate pairs and
start at step 0 with nothing revealed. -/
def initSession (shuffles : Nat → List String) : SessionState :=
  ⟨generate_valid_pairs names blocked_pairs shuffles, 0, false⟩

/-- The "Generate New Pairings" handler: every session key is deleted and the
page rerun, so the initialization block runs again with fresh randomness. -/
def resetSession (_old : SessionState) (shuffles : Nat → List String) : SessionState :=
  initSession shuffles

theorem sessionReveal_pairs (roster : List String) (s : SessionState) :
    (sessionReveal roster s).pairs = s.pairs := by
  unfold sessionReveal
  split <;> rfl

theorem sessionAdvance_pairs (roster : List String) (s : SessionState) :
    (sessionAdvance roster s).pairs = s.pairs := by
  unfold sessionAdvance
  split <;> rfl

theorem sessionReveal_step (roster : List String) (s : SessionState) :
    (sessionReveal roster s).step = s.step := by
  unfold sessionReveal
  split <;> rfl

theorem revealAdvanceCycle_step (roster : List String) (p : List (String × String))
    (j : Nat) (hj : j < roster.length) :
    revealAdvanceCycle roster ⟨some p, j, false⟩ = ⟨some p, j + 1, false⟩ := by
  unfold revealAdvanceCycle sessionReveal sessionAdvance
  simp [hj]

/-- C5: with a roster of length N, k reveal-then-advance cycles from the
initial state Hidden(0) land exactly at Hidden(k) for every k ≤ N — so N
cycles reach Done (step = N) and no fewer do — and Done can only be entered by
an advance taken from Revealed(N-1): a reveal never changes the step, and an
advance that lands at step N must have started at step N-1 with the revealed
flag set. -/
theorem C5_cycles_to_done (roster : List String) (p : List (String × String)) (k : Nat)
    (hk : k ≤ roster.length) :
    (revealAdvanceCycle roster)^[k] ⟨some p, 0, false⟩ = ⟨some p, k, false⟩ ∧
    (∀ s : SessionState, s.step < roster.length →
      (sessionReveal roster s).step < roster.length) ∧
    (∀ s : SessionState, s.step < roster.length →
      (sessionAdvance roster s).step = roster.length →
      s.step = roster.length - 1 ∧ s.revealed = true) := by
  refine ⟨?_, ?_, ?_⟩
  · induction k with
    | zero => rfl
    | succ n ih =>
      rw [Function.iterate_succ_apply', ih (by omega)]
      exact revealAdvanceCycle_step roster p n (by omega)
  · intro s hs
    rw [sessionReveal_step]
    exact hs
  · intro s hs hdone
    unfold sessionAdvance at hdone
    split at hdone
    · rename_i hguard
      simp only at hdone
      exact ⟨by omega, hguard.2.2⟩
    · omega

theorem C5_cycles_to_done_witness :
    (revealAdvanceCycle names)^[5] ⟨some (mk_pairs names goodList), 0, false⟩
      = ⟨some (mk_pairs names goodList), 5, false⟩ :=
  (C5_cycles_to_done names (mk_pairs names goodList) 5 (by decide)).1

/-- C6: invalid transitions are state-preserving no-ops: from Hidden(0) an
advance leaves the state at Hidden(0), a reveal moves to Revealed(0), and a
second reveal from Revealed(0) is idempotent. -/
theorem C6_invalid_noop (roster : List String) (p : List (String × String))
    (h : 0 < roster.length) :
    sessionAdvance roster ⟨some p, 0, false⟩ = ⟨some p, 0, false⟩ ∧
    sessionReveal roster ⟨some p, 0, false⟩ = ⟨some p, 0, true⟩ ∧
    sessionReveal roster (sessionReveal roster ⟨some p, 0, false⟩) = ⟨some p, 0, true⟩ := by
  refine ⟨?_, ?_, ?_⟩ <;> simp [sessionReveal, sessionAdvance, h]

theorem C6_invalid_noop_witness :
    sessionAdvance names ⟨some (mk_pairs names goodList), 0, false⟩
      = ⟨some (mk_pairs names goodList), 0, false⟩ :=
  (C6_invalid_noop names (mk_pairs names goodList) (by decide)).1

/-- C7: from any state whose step is within bounds, both transitions keep the
step index non-decreasing and bounded by the roster length, and whenever a
transition changes the step the resulting revealed flag is false. -/
theorem C7_step_invariants (roster : List String) (s : SessionState)
    (h : s.step ≤ roster.length) :
    s.step ≤ (sessionReveal roster s).step ∧
    s.step ≤ (sessionAdvance roster s).step ∧
    (sessionReveal roster s).step ≤ roster.length ∧
    (sessionAdvance roster s).step ≤ roster.length ∧
    ((sessionReveal roster s).step ≠ s.step → (sessionReveal roster s).revealed = false) ∧
    ((sessionAdvance roster s).step ≠ s.step → (sessionAdvance roster s).revealed = false) := by
  refine ⟨?_, ?_, ?_, ?_, ?_, ?_⟩
  · rw [sessionReveal_step]
  · unfold sessionAdvance
    split
    · exact Nat.le_succ _
    · exact Nat.le_refl _
  · rw [sessionReveal_step]
    exact h
  · unfold sessionAdvance
    split
    · rename_i hg
      exact hg.2.1
    · exact h
  · rw [sessionReveal_step]
    intro hne
    exact absurd rfl hne
  · unfold sessionAdvance
    split
    · intro _
      rfl
    · intro hne
      exact absurd rfl hne

theorem C7_step_invariants_witness :
    2 ≤ (sessionAdvance names ⟨some (mk_pairs names goodList), 2, true⟩).step ∧
    (sessionAdvance names ⟨some (mk_pairs names goodList), 2, true⟩).step ≤ names.length :=
  ⟨(C7_step_invariants names ⟨some (mk_pairs names goodList), 2, true⟩ (by decide)).2.1,
   (C7_step_invariants names ⟨some (mk_pairs names goodList), 2, true⟩ (by decide)).2.2.2.1⟩

/-- C8: reset is all-or-nothing: after the reset handler the session holds the
freshly generated assignment together with the reveal state at Hidden(0),
independently of the previous session state, so no stale step, revealed flag
or assignment can survive a reset. -/
theorem C8_reset_atomic (old : SessionState) (shuffles : Nat → List String) :
    resetSession old shuffles
      = ⟨generate_valid_pairs names blocked_pairs shuffles, 0, false⟩ ∧
    (resetSession old shuffles).pairs = generate_valid_pairs names blocked_pairs shuffles ∧
    (resetSession old shuffles).step = 0 ∧
    (resetSession old shuffles).revealed = false :=
  ⟨rfl, rfl, rfl, rfl⟩

/-- The module-level data `generate_valid_pairs` reads: the roster and the
forbidden set.  Threading it through the call makes any mutation visible. -/
structure MatcherEnv where
  names : List String
  blocked_pairs : List (String × String)

/-- The attempt loop in state-passing form: each iteration reads the roster
and the forbidden set from the environment and returns the (unchanged)
environment with its result.  The loop body only copies the roster
(`names.copy()`) and shuffles the copy, so the environment is never written. -/
def try_loop_run (env : MatcherEnv) (shuffles : Nat → List String) :
    Nat → Nat → Option (List (String × String)) × MatcherEnv
  | _, 0 => (none, env)
  | attempt, fuel + 1 =>
    let pairs := mk_pairs env.names (shuffles attempt)
    if is_valid env.blocked_pairs pairs then (some pairs, env)
    else try_loop_run env shuffles (attempt + 1) fuel

/-- `generate_valid_pairs` as a state-passing computation over its
environment. -/
def generate_valid_pairs_run (env : MatcherEnv) (shuffles : Nat → List String) :
    Option (List (String × String)) × MatcherEnv :=
  try_loop_run env shuffles 0 10000

theorem try_loop_run_eq (env : MatcherEnv) (shuffles : Nat → List String)
    (attempt fuel : Nat) :
    try_loop_run env shuffles attempt fuel
      = (try_loop env.names env.blocked_pairs shuffles attempt fuel, env) := by
  induction fuel generalizing attempt with
  | zero => rfl
  | succ n ih =>
    simp only [try_loop_run, try_loop]
    by_cases hv : is_valid env.blocked_pairs (mk_pairs env.names (shuffles attempt)) = true
    · simp [hv]
    · simp [hv, ih (attempt + 1)]

/-- C9: the matcher has no side effect beyond its result: the roster and the
forbidden set after a call are the ones before it, a second call is oblivious
to the first (no state is retained across calls), and the state-passing run
computes exactly the pure function of the call's own inputs — each invocation
is determined solely by the roster, the forbidden set and its own fresh
shuffle stream. -/
theorem C9_no_side_effects (env : MatcherEnv) (s1 s2 : Nat → List String) :
    (generate_valid_pairs_run env s1).2 = env ∧
    (generate_valid_pairs_run (generate_valid_pairs_run env s1).2 s2).1
      = (generate_valid_pairs_run env s2).1 ∧
    (generate_valid_pairs_run env s1).1
      = generate_valid_pairs env.names env.blocked_pairs s1 := by
  have h1 := try_loop_run_eq env s1 0 10000
  have h2 := try_loop_run_eq env s2 0 10000
  refine ⟨?_, ?_, ?_⟩ <;>
    simp [generate_valid_pairs_run, generate_valid_pairs, h1, h2]

/-- Session states reachable in the app: an initialization with some stream of
shuffles drawn from `random.shuffle` (hence permutations of the roster),
followed by any sequence of button presses.  A reset re-enters through
initialization with fresh randomness, so post-reset states are the `init`
states. -/
inductive ReachableSession : SessionState → Prop where
  | init (shuffles : Nat → List String) (hsh : ∀ k, (shuffles k).Perm names) :
      ReachableSession (initSession shuffles)
  | rev {s : SessionState} : ReachableSession s → ReachableSession (sessionReveal names s)
  | adv {s : SessionState} : ReachableSession s → ReachableSession (sessionAdvance names s)

theorem lookup_isSome_of_mem_keys (l : List (String × String)) (a : String)
    (h : a ∈ l.map Prod.fst) : (l.lookup a).isSome = true := by
  induction l with
  | nil => simp at h
  | cons hd tl ih =>
    obtain ⟨k, v⟩ := hd
    by_cases hak : a = k
    · simp [List.lookup, hak]
    · have hbeq : (a == k) = false := beq_false_of_ne hak
      simp only [List.lookup, hbeq]
      apply ih
      simp only [List.map_cons, List.mem_cons] at h
      exact h.resolve_left hak

theorem reachable_pairs_keys {s : SessionState} (hs : ReachableSession s)
    (p : List (String × String)) (hp : s.pairs = some p) :
    p.map Prod.fst = names := by
  induction hs generalizing p with
  | init shuffles hsh =>
    exact (gvp_keys_values names blocked_pairs shuffles hsh p hp).1
  | rev _ ih =>
    rw [sessionReveal_pairs] at hp
    exact ih p hp
  | adv _ ih =>
    rw [sessionAdvance_pairs] at hp
    exact ih p hp

/-- C10: in every reachable non-terminal, non-failure session state (the
generated pairs are present and the step is below the roster length), the
active participant `names[step]` exists and is a key of the assignment, so the
recipient lookup `pairs[names[step]]` in the revealed branch never fails. -/
theorem C10_lookup_safe (s : SessionState) (hs : ReachableSession s)
    (p : List (String × String)) (hp : s.pairs = some p)
    (hstep : s.step < names.length) :
    ∃ who : String, names.get? s.step = some who ∧ (p.lookup who).isSome = true := by
  refine ⟨names.get ⟨s.step, hstep⟩, List.get?_eq_get hstep, ?_⟩
  apply lookup_isSome_of_mem_keys
  rw [reachable_pairs_keys hs p hp]
  exact List.get_mem names s.step hstep

theorem C10_lookup_safe_witness :
    ∃ who : String, names.get? 0 = some who ∧
      ((mk_pairs names goodList).lookup who).isSome = true :=
  C10_lookup_safe (initSession (fun _ => goodList))
    (ReachableSession.init (fun _ => goodList) (fun _ => goodList_perm))
    (mk_pairs names goodList) (by decide) (by decide)

end SecretSanta
